import Mathlib

/-!
Verification of the agent-sdk-go message-history builders, the OpenAI
tool-call orchestration loop, generation-option normalization, and the
tracing middleware, as a shallow embedding in Lean 4.

External collaborators (vendor transport, Memory.GetMessages, JSON
argument parsing, the retry policy) are modelled as parameters or by
their observable outcome, following the interface contracts of the
source.
-/

set_option linter.unusedVariables false

namespace AgentSDK

/-- One turn role in the abstract conversation history (interfaces.Message.Role). -/
inductive MessageRole
  | system
  | user
  | assistant
  | tool
deriving DecidableEq, Repr

/-- A model-issued request to invoke a named tool (interfaces.ToolCall). -/
structure ToolCall where
  id : String
  name : String
  arguments : String
deriving DecidableEq, Repr

/-- A metadata value stored in a Message's metadata map. The builders only
inspect whether the value is a string, so other values are collapsed to one
constructor. -/
inductive MetaValue
  | str (s : String)
  | other
deriving DecidableEq, Repr

/-- One turn of the abstract conversation history (interfaces.Message). The
metadata map is modelled as an association list; none stands for a nil map. -/
structure Message where
  role : MessageRole
  content : String := ""
  toolCalls : List ToolCall := []
  toolCallID : String := ""
  metadata : Option (List (String × MetaValue)) := none
deriving DecidableEq, Repr

/-- A memory handle is modelled by the observable outcome of its GetMessages
call: none stands for a nil Memory Store, some (Except.error e) for a failing
retrieval, some (Except.ok msgs) for a successful retrieval. -/
abbrev MemoryHandle := Option (Except String (List Message))

/-- The structured form of parsed tool-call arguments: the keys of the JSON
object with their (opaque, stringified) values. -/
abbrev ArgsMap := List (String × String)

/-- A native Gemini function call part (genai.FunctionCall). -/
structure Gemini.FunctionCall where
  name : String
  args : ArgsMap
deriving DecidableEq, Repr

/-- A native Gemini function response part (genai.FunctionResponse); the
response map carries the result text under the key result. -/
structure Gemini.FunctionResponse where
  name : String
  result : String
deriving DecidableEq, Repr

/-- A native Gemini content part (genai.Part). The source always sets exactly
one of the Text, FunctionCall and FunctionResponse fields, so the part is
modelled as a sum. -/
inductive Gemini.Part
  | text (s : String)
  | functionCall (fc : Gemini.FunctionCall)
  | functionResponse (fr : Gemini.FunctionResponse)
deriving DecidableEq, Repr

/-- A native Gemini content entry (genai.Content). -/
structure Gemini.Content where
  role : String
  parts : List Gemini.Part
deriving DecidableEq, Repr

/-- Resolves the tool name for a Gemini function response from the message
metadata, as done inline in pkg/llm/gemini/message_history.go lines 108-114:
the name defaults to unknown unless the metadata map holds a string under the
key tool_name. -/
def Gemini.resolveToolName (metadata : Option (List (String × MetaValue))) : String :=
  match metadata with
  | none => "unknown"
  | some md =>
    match md.lookup ("tool_name") with
    | some (MetaValue.str s) => s
    | _ => "unknown"

/-- Gemini messageHistoryBuilder.convertMemoryMessage. The JSON decoding of
serialized tool-call arguments (encoding/json, external to this repository)
is passed in as jsonParse; a parse failure yields none and the builder
substitutes the empty object, mirroring the warn-and-default in the source. -/
def Gemini.convertMemoryMessage (jsonParse : String → Option ArgsMap)
    (msg : Message) : Option Gemini.Content :=
  match msg.role with
  | MessageRole.user =>
    some ⟨"user", [Gemini.Part.text msg.content]⟩
  | MessageRole.assistant =>
    if msg.toolCalls.length > 0 then
      let textParts : List Gemini.Part :=
        if msg.content ≠ "" then [Gemini.Part.text msg.content] else []
      let callParts : List Gemini.Part :=
        msg.toolCalls.map fun tc =>
          Gemini.Part.functionCall ⟨tc.name, (jsonParse tc.arguments).getD []⟩
      some ⟨"model", textParts ++ callParts⟩
    else if msg.content ≠ "" then
      some ⟨"model", [Gemini.Part.text msg.content]⟩
    else
      none
  | MessageRole.tool =>
    if msg.toolCallID ≠ "" then
      some ⟨"user", [Gemini.Part.functionResponse
        ⟨Gemini.resolveToolName msg.metadata, msg.content⟩]⟩
    else
      none
  | MessageRole.system =>
    some ⟨"user", [Gemini.Part.text ("System: " ++ msg.content)]⟩

/-- Gemini messageHistoryBuilder.buildContents: with a nil memory only the
current prompt is emitted as a user turn; with a failing retrieval the error
is logged and the contents stay empty; otherwise each memory message is
converted independently, in order, dropping unrepresentable ones. -/
def Gemini.buildContents (jsonParse : String → Option ArgsMap)
    (prompt : String) (memory : MemoryHandle) : List Gemini.Content :=
  match memory with
  | none => [⟨"user", [Gemini.Part.text prompt]⟩]
  | some (Except.error _) => []
  | some (Except.ok msgs) => msgs.filterMap (Gemini.convertMemoryMessage jsonParse)

/-- A native OpenAI chat message param (openai.ChatCompletionMessageParamUnion),
as constructed by openai.SystemMessage, openai.UserMessage,
openai.AssistantMessage, openai.ToolMessage and responseMessage.ToParam. An
assistant param carries the tool calls of the response message it came from;
the plain openai.AssistantMessage constructor carries none. -/
inductive ChatMessageParam
  | system (content : String)
  | user (content : String)
  | assistant (content : String) (toolCalls : List ToolCall)
  | toolMsg (content : String) (toolCallID : String)
deriving DecidableEq, Repr

/-- Azure OpenAI messageHistoryBuilder.convertMemoryMessage
(pkg/llm/azureopenai/message_history.go). Assistant messages are emitted as
plain assistant text turns even when they carry tool calls; empty-content
assistant messages and tool messages without a toolCallID are dropped. -/
def AzureOpenAI.convertMemoryMessage (msg : Message) : Option ChatMessageParam :=
  match msg.role with
  | MessageRole.user =>
    some (ChatMessageParam.user msg.content)
  | MessageRole.assistant =>
    if msg.content ≠ "" then some (ChatMessageParam.assistant msg.content []) else none
  | MessageRole.tool =>
    if msg.toolCallID ≠ "" then
      some (ChatMessageParam.toolMsg msg.content msg.toolCallID)
    else
      none
  | MessageRole.system =>
    some (ChatMessageParam.system msg.content)

/-- Azure OpenAI messageHistoryBuilder.buildMessages: with a nil memory only
the current prompt is emitted as a user turn; with a failing retrieval the
messages stay empty; otherwise each memory message is converted in order. -/
def AzureOpenAI.buildMessages (prompt : String) (memory : MemoryHandle) :
    List ChatMessageParam :=
  match memory with
  | none => [ChatMessageParam.user prompt]
  | some (Except.error _) => []
  | some (Except.ok msgs) => msgs.filterMap AzureOpenAI.convertMemoryMessage

/-- Modelled from the spec: the OpenAI adapter's own message-history builder
(newMessageHistoryBuilder and buildMessages in pkg/llm/openai) is not among
the provided sources; per spec section 4.1 each vendor builder follows the
same contract over the same native param type, so the OpenAI builder is
modelled by the Azure OpenAI builder over the shared param union. -/
def OpenAI.buildMessages (prompt : String) (memory : MemoryHandle) :
    List ChatMessageParam :=
  AzureOpenAI.buildMessages prompt memory

/-- Generation tuning parameters (interfaces.LLMConfig); numeric fields are
Go float64 values, modelled as rationals. Zero values mirror Go defaults. -/
structure LLMConfig where
  temperature : ℚ := 0
  topP : ℚ := 0
  frequencyPenalty : ℚ := 0
  presencePenalty : ℚ := 0
  stopSequences : List String := []
  reasoning : String := ""
deriving DecidableEq, Repr

/-- A named response-format schema (interfaces.ResponseFormat); the schema
payload is opaque at this layer. -/
structure ResponseFormat where
  name : String
  schema : String
deriving DecidableEq, Repr

/-- Transient per-request options (interfaces.GenerateOptions) after the
variadic option functions have been applied; field defaults are Go zero
values. -/
structure GenerateOptions where
  llmConfig : Option LLMConfig := none
  systemMessage : String := ""
  memory : MemoryHandle := none
  responseFormat : Option ResponseFormat := none
  maxIterations : Int := 0
deriving Repr

/-- A variadic generation option (interfaces.GenerateOption): a mutation of
the options record. -/
abbrev GenerateOption := GenerateOptions → GenerateOptions

/-- Applies a list of variadic options to an initial options record, in
order, as the Go option-application loops do. -/
def applyOptions (init : GenerateOptions) (opts : List GenerateOption) :
    GenerateOptions :=
  opts.foldl (fun p o => o p) init

/-- openai.WithTemperature: sets the temperature on the options record's
LLM config (which Generate pre-populates before applying options). -/
def withTemperature (t : ℚ) : GenerateOption := fun p =>
  { p with llmConfig := p.llmConfig.map fun cfg => { cfg with temperature := t } }

/-- openai.WithTopP: sets the top-p on the options record's LLM config. -/
def withTopP (t : ℚ) : GenerateOption := fun p =>
  { p with llmConfig := p.llmConfig.map fun cfg => { cfg with topP := t } }

/-- Declared item schema of an array-typed tool parameter
(interfaces.ParameterSpec.Items). -/
structure ParameterItemsSpec where
  type : String := ""
deriving DecidableEq, Repr

/-- Declared schema of one tool parameter (interfaces.ParameterSpec). -/
structure ParameterSpec where
  type : String := ""
  description : String := ""
  required : Bool := false
  enum : Option (List String) := none
  items : Option ParameterItemsSpec := none
deriving DecidableEq, Repr

/-- An offered tool (interfaces.Tool), modelled by its observable interface:
name, description, declared parameter map (as an association list, fixing an
iteration order for the Go map) and the outcome of Execute on a given
serialized argument payload. -/
structure Tool where
  name : String
  description : String
  parameters : List (String × ParameterSpec) := []
  execute : String → Except String String

/-- The JSON-schema property emitted for one tool parameter. -/
structure PropertySchema where
  description : String
  type : String
  itemsType : Option String := none
  enum : Option (List String) := none
deriving DecidableEq, Repr

/-- A tool definition transmitted to the vendor
(shared.FunctionDefinitionParam wrapped by openai.ChatCompletionFunctionTool). -/
structure FunctionDefinition where
  name : String
  description : String
  properties : List (String × PropertySchema)
  required : List String
deriving DecidableEq, Repr

/-- Builds the vendor tool definition for one tool, as in GenerateWithTools
(pkg/llm/openai/client.go lines 383-430): integer parameter types are
normalized to number, array parameters default their item type to string when
unspecified, enumerations pass through, and required parameter names are
collected into the required list. -/
def makeToolDefinition (tool : Tool) : FunctionDefinition :=
  let step := fun (acc : List (String × PropertySchema) × List String)
      (entry : String × ParameterSpec) =>
    let name := entry.1
    let param := entry.2
    let paramType := if param.type = "integer" then "number" else param.type
    let itemsType : Option String :=
      if paramType = "array" then
        some (match param.items with
          | some it => if it.type ≠ "" then it.type else "string"
          | none => "string")
      else none
    let schema : PropertySchema :=
      ⟨param.description, paramType, itemsType, param.enum⟩
    (acc.1 ++ [(name, schema)], if param.required then acc.2 ++ [name] else acc.2)
  let built := tool.parameters.foldl step ([], [])
  ⟨tool.name, tool.description, built.1, built.2⟩

/-- The fixed list of reasoning-model name prefixes
(pkg/llm/openai/client.go lines 48-53). -/
def reasoningModelNames : List String :=
  ["o1-", "o1-mini", "o1-preview",
   "o3-", "o3-mini",
   "o4-", "o4-mini",
   "gpt-5", "gpt-5-mini", "gpt-5-nano"]

/-- isReasoningModel: true when the model name starts with one of the fixed
reasoning-model prefixes (Go strings.HasPrefix, modelled structurally over
character lists). -/
def isReasoningModel (model : String) : Bool :=
  reasoningModelNames.any fun p => p.data.isPrefixOf model.data

/-- Modelled from the spec: the retry.Executor (pkg/retry, not among the
provided sources) wraps an operation with a configured count/backoff policy,
opaque to the core; only its configured presence is observable here. -/
structure RetryExecutor where
  attempts : Nat := 1
deriving DecidableEq, Repr

/-- The OpenAI provider client (openai.OpenAIClient), reduced to the fields
the generation logic reads: the model name and the optionally configured
retry executor (a nil pointer in Go is none). -/
structure OpenAIClient where
  model : String
  retryExecutor : Option RetryExecutor := none
deriving DecidableEq, Repr

/-- getTemperatureForModel: reasoning models are forced to temperature 1
(the mismatch is logged, not rejected); other models keep the request. -/
def getTemperatureForModel (c : OpenAIClient) (requestedTemp : ℚ) : ℚ :=
  if isReasoningModel c.model then 1 else requestedTemp

/-- A vendor chat request (openai.ChatCompletionNewParams) with the fields
the source sets; none stands for a field left unset and an empty stop list
for an absent stop union. -/
structure Request where
  model : String
  messages : List ChatMessageParam
  tools : List FunctionDefinition := []
  temperature : Option ℚ := none
  topP : Option ℚ := none
  frequencyPenalty : Option ℚ := none
  presencePenalty : Option ℚ := none
  stop : List String := []
  reasoningEffort : Option String := none
  responseFormat : Option ResponseFormat := none
  parallelToolCalls : Option Bool := none
deriving DecidableEq, Repr

/-- One choice message of a vendor chat response
(openai.ChatCompletion Choices Message). -/
structure ChatMessage where
  content : String
  toolCalls : List ToolCall := []
deriving DecidableEq, Repr

/-- A vendor chat response (openai.ChatCompletion), reduced to its choices. -/
structure ChatResponse where
  choices : List ChatMessage
deriving DecidableEq, Repr

/-- How a network call was dispatched: directly, or through the configured
retry executor. -/
inductive Dispatch
  | direct
  | viaRetry
deriving DecidableEq, Repr

/-- A record of one network call issued to the vendor: the transmitted
request and the dispatch layer used. -/
structure CallEvent where
  req : Request
  dispatch : Dispatch
deriving DecidableEq, Repr

/-- The vendor transport (ChatService.Completions.New), modelled by the
outcome it produces for the k-th network call carrying a given request. -/
abbrev Vendor := Nat → Request → Except String ChatResponse

/-- The request built for one round of the tool loop
(pkg/llm/openai/client.go lines 444-458): reasoning models omit top-p and
parallel tool calls; the stop union is set only from a non-empty list. -/
def toolLoopRequest (c : OpenAIClient) (cfg : LLMConfig)
    (toolDefs : List FunctionDefinition) (messages : List ChatMessageParam) :
    Request :=
  { model := c.model
    messages := messages
    tools := toolDefs
    temperature := some (getTemperatureForModel c cfg.temperature)
    frequencyPenalty := some cfg.frequencyPenalty
    presencePenalty := some cfg.presencePenalty
    topP := if isReasoningModel c.model then none else some cfg.topP
    parallelToolCalls := if isReasoningModel c.model then none else some true
    stop := cfg.stopSequences }

/-- Go strings.TrimSpace: removes leading and trailing whitespace from a
string, modelled structurally over the character list. -/
def trimSpace (s : String) : String :=
  String.mk
    (((s.data.dropWhile Char.isWhitespace).reverse.dropWhile Char.isWhitespace).reverse)

/-- Resolves and runs one tool call of a round
(pkg/llm/openai/client.go lines 478-498): the first offered tool of the
requested name runs with the serialized arguments; an absent tool or a
failing execution is surfaced to the model as an error-text tool message,
never as a loop failure; the result turn is keyed by the call id. -/
def executeToolCall (tools : List Tool) (tc : ToolCall) : ChatMessageParam :=
  match tools.find? (fun t => t.name == tc.name) with
  | none => ChatMessageParam.toolMsg ("Error: tool not found: " ++ tc.name) tc.id
  | some t =>
    match t.execute tc.arguments with
    | Except.error e => ChatMessageParam.toolMsg ("Error: " ++ e) tc.id
    | Except.ok result => ChatMessageParam.toolMsg result tc.id

/-- The iteration loop of GenerateWithTools
(pkg/llm/openai/client.go lines 443-502). fuel is the remaining iteration
budget, k the number of network calls already issued; the returned trace
lists one CallEvent per vendor request, in order. Each round's network call
is dispatched directly, without the retry executor. -/
def toolLoop (c : OpenAIClient) (cfg : LLMConfig) (tools : List Tool)
    (toolDefs : List FunctionDefinition) (vendor : Vendor) :
    Nat → Nat → List ChatMessageParam → Except String String × List CallEvent
  | 0, _, _ =>
    (Except.error ("max iterations reached without a final answer"), [])
  | fuel + 1, k, messages =>
    let req := toolLoopRequest c cfg toolDefs messages
    let ev : CallEvent := ⟨req, Dispatch.direct⟩
    match vendor k req with
    | Except.error e =>
      (Except.error ("failed to create chat completion: " ++ e), [ev])
    | Except.ok resp =>
      match resp.choices with
      | [] => (Except.error ("no completions returned"), [ev])
      | choice :: _ =>
        let withReply := messages ++ [ChatMessageParam.assistant choice.content choice.toolCalls]
        if choice.toolCalls.isEmpty then
          (Except.ok (trimSpace choice.content), [ev])
        else
          let withResults := withReply ++ choice.toolCalls.map (executeToolCall tools)
          let next := toolLoop c cfg tools toolDefs vendor fuel (k + 1) withResults
          (next.1, ev :: next.2)

/-- The effective LLM config of GenerateWithTools: a nil config defaults to
temperature 0.7 and top-p 1 (pkg/llm/openai/client.go lines 370-375). -/
def gwtConfig (params : GenerateOptions) : LLMConfig :=
  params.llmConfig.getD { temperature := 7/10, topP := 1 }

/-- The effective iteration bound of GenerateWithTools: a zero MaxIterations
defaults to 10 (pkg/llm/openai/client.go lines 376-379). -/
def gwtMaxIterations (params : GenerateOptions) : Int :=
  if params.maxIterations = 0 then 10 else params.maxIterations

/-- The initial message list of GenerateWithTools: the built history with the
system message, when present, prepended (pkg/llm/openai/client.go lines
433-440). -/
def gwtInitialMessages (prompt : String) (params : GenerateOptions) :
    List ChatMessageParam :=
  let messages := OpenAI.buildMessages prompt params.memory
  if params.systemMessage ≠ "" then
    ChatMessageParam.system params.systemMessage :: messages
  else
    messages

/-- OpenAIClient.GenerateWithTools (pkg/llm/openai/client.go lines 361-503):
applies the variadic options, builds the tool definitions once, builds the
initial history, and runs the bounded tool loop. Returns the Go result
together with the trace of vendor requests issued. -/
def generateWithTools (c : OpenAIClient) (prompt : String) (tools : List Tool)
    (opts : List GenerateOption) (vendor : Vendor) :
    Except String String × List CallEvent :=
  let params := applyOptions {} opts
  toolLoop c (gwtConfig params) tools (tools.map makeToolDefinition) vendor
    (gwtMaxIterations params).toNat 0 (gwtInitialMessages prompt params)

/-- The initial options record of Generate: the LLM config is pre-populated
with temperature 0.7 before the caller's options apply
(pkg/llm/openai/client.go lines 128-132). -/
def generateInit : GenerateOptions :=
  { llmConfig := some { temperature := 7/10 } }

/-- The request transmitted by Generate (pkg/llm/openai/client.go lines
144-201): reasoning models get a forced temperature of 1 and no top-p field;
reasoning effort is sent only for reasoning models with a non-empty value;
the response format passes through when present. -/
def generateRequest (c : OpenAIClient) (prompt : String)
    (params : GenerateOptions) : Request :=
  { model := c.model
    messages :=
      (if params.systemMessage ≠ "" then
        [ChatMessageParam.system params.systemMessage]
      else []) ++ OpenAI.buildMessages prompt params.memory
    temperature := params.llmConfig.map fun cfg => getTemperatureForModel c cfg.temperature
    topP :=
      match params.llmConfig with
      | some cfg => if isReasoningModel c.model then none else some cfg.topP
      | none => none
    frequencyPenalty := params.llmConfig.map fun cfg => cfg.frequencyPenalty
    presencePenalty := params.llmConfig.map fun cfg => cfg.presencePenalty
    stop :=
      match params.llmConfig with
      | some cfg => cfg.stopSequences
      | none => []
    reasoningEffort :=
      match params.llmConfig with
      | some cfg =>
        if isReasoningModel c.model = true ∧ cfg.reasoning ≠ "" then
          some cfg.reasoning
        else none
      | none => none
    responseFormat := params.responseFormat }

/-- The one network call of Generate: dispatched through the retry executor
exactly when one is configured (pkg/llm/openai/client.go lines 237-244). -/
def generateEvent (c : OpenAIClient) (prompt : String)
    (opts : List GenerateOption) : CallEvent :=
  ⟨generateRequest c prompt (applyOptions generateInit opts),
   if c.retryExecutor.isSome then Dispatch.viaRetry else Dispatch.direct⟩

/-- OpenAIClient.Generate (pkg/llm/openai/client.go lines 126-259): builds
the request, issues one (possibly retry-wrapped) network call, and returns
the first choice's content, a no-response error, or the transport error. -/
def generate (c : OpenAIClient) (prompt : String) (opts : List GenerateOption)
    (vendor : Vendor) : Except String String × List CallEvent :=
  (match vendor 0 (generateRequest c prompt (applyOptions generateInit opts)) with
   | Except.error e => Except.error ("failed to generate text: " ++ e)
   | Except.ok resp =>
     match resp.choices with
     | [] => Except.error ("no response from OpenAI API")
     | choice :: _ => Except.ok choice.content,
   [generateEvent c prompt opts])

/-- The outcome of a traced call: the returned result together with the span
names the middleware started (span attributes have no effect on results). -/
structure TracedResult where
  result : Except String String
  spans : List String
deriving Repr

/-- A wrapped LLM client as the tracing middleware sees it
(interfaces.LLM): name, Generate, and the optional GenerateWithTools method
(none when the dynamic capability check fails). -/
structure LLMClient where
  name : String
  generate : String → List GenerateOption → Except String String
  generateWithTools :
    Option (String → List Tool → List GenerateOption → Except String String) := none

/-- TracedLLM.Generate (tracing middleware): starts the llm.generate span and
returns the wrapped client's result unchanged. -/
def tracedGenerate (llm : LLMClient) (prompt : String)
    (opts : List GenerateOption) : TracedResult :=
  { result := llm.generate prompt opts, spans := ["llm.generate"] }

/-- TracedLLM.GenerateWithTools (tracing middleware): when the wrapped client
implements GenerateWithTools, traces and delegates to it; otherwise falls
back to the traced Generate with the same prompt and options, discarding the
tools list. -/
def tracedGenerateWithTools (llm : LLMClient) (prompt : String)
    (tools : List Tool) (opts : List GenerateOption) : TracedResult :=
  match llm.generateWithTools with
  | some gwt => { result := gwt prompt tools opts, spans := ["llm.generate_with_tools"] }
  | none => tracedGenerate llm prompt opts

/-- When a conversion succeeds on every element, filterMap keeps one entry
per element. -/
theorem filterMap_length_of_isSome {α β : Type} (f : α → Option β) :
    ∀ l : List α, (∀ a ∈ l, (f a).isSome) → (l.filterMap f).length = l.length := by
  intro l
  induction l with
  | nil => intro _; rfl
  | cons a l ih =>
    intro h
    obtain ⟨b, hb⟩ := Option.isSome_iff_exists.mp (h a (List.mem_cons_self a l))
    simp only [List.filterMap_cons, hb, List.length_cons]
    exact congrArg Nat.succ (ih fun x hx => h x (List.mem_cons_of_mem a hx))

/-- When a conversion succeeds on every element, the i-th filterMap entry is
the converted i-th element. -/
theorem filterMap_getElem_of_isSome {α β : Type} (f : α → Option β) :
    ∀ l : List α, (∀ a ∈ l, (f a).isSome) →
      ∀ i : Nat, (l.filterMap f)[i]? = (l[i]?).bind f := by
  intro l
  induction l with
  | nil => intro _ i; simp
  | cons a l ih =>
    intro h i
    obtain ⟨b, hb⟩ := Option.isSome_iff_exists.mp (h a (List.mem_cons_self a l))
    match i with
    | 0 => simp [List.filterMap_cons, hb]
    | i + 1 =>
      simp only [List.filterMap_cons, hb, List.getElem?_cons_succ]
      exact ih (fun x hx => h x (List.mem_cons_of_mem a hx)) i

/-- C6: with a nil Memory Store, the built history of each builder is exactly
one entry, the current prompt as a user turn. -/
theorem nil_memory_builds_single_user_turn
    (jsonParse : String → Option ArgsMap) (prompt : String) :
    Gemini.buildContents jsonParse prompt none
        = [⟨"user", [Gemini.Part.text prompt]⟩]
    ∧ AzureOpenAI.buildMessages prompt none = [ChatMessageParam.user prompt] :=
  ⟨rfl, rfl⟩

/-- C7: when memory retrieval succeeds with messages none of which the
builder drops, the built history has exactly one entry per message, the i-th
entry being the conversion of the i-th message. -/
theorem built_history_preserves_memory
    (jsonParse : String → Option ArgsMap) (prompt : String) (msgs : List Message)
    (hg : ∀ m ∈ msgs, (Gemini.convertMemoryMessage jsonParse m).isSome)
    (ha : ∀ m ∈ msgs, (AzureOpenAI.convertMemoryMessage m).isSome) :
    ((Gemini.buildContents jsonParse prompt (some (Except.ok msgs))).length = msgs.length
      ∧ ∀ i : Nat,
          (Gemini.buildContents jsonParse prompt (some (Except.ok msgs)))[i]?
            = (msgs[i]?).bind (Gemini.convertMemoryMessage jsonParse))
    ∧ ((AzureOpenAI.buildMessages prompt (some (Except.ok msgs))).length = msgs.length
      ∧ ∀ i : Nat,
          (AzureOpenAI.buildMessages prompt (some (Except.ok msgs)))[i]?
            = (msgs[i]?).bind AzureOpenAI.convertMemoryMessage) := by
  refine ⟨⟨?_, ?_⟩, ?_, ?_⟩
  · exact filterMap_length_of_isSome _ msgs hg
  · exact filterMap_getElem_of_isSome _ msgs hg
  · exact filterMap_length_of_isSome _ msgs ha
  · exact filterMap_getElem_of_isSome _ msgs ha

/-- The spec's scenario memory: user Hi, assistant Hello, user Continue. -/
def scenarioMemory : List Message :=
  [{ role := MessageRole.user, content := "Hi" },
   { role := MessageRole.assistant, content := "Hello!" },
   { role := MessageRole.user, content := "Continue" }]

/-- Witness for C7 on the spec's three-message scenario. -/
theorem built_history_preserves_memory_witness :
    (∀ m ∈ scenarioMemory,
        (Gemini.convertMemoryMessage (fun _ => (none : Option ArgsMap)) m).isSome)
    ∧ (∀ m ∈ scenarioMemory, (AzureOpenAI.convertMemoryMessage m).isSome)
    ∧ (Gemini.buildContents (fun _ => (none : Option ArgsMap)) ("Continue")
        (some (Except.ok scenarioMemory))).length = 3
    ∧ (AzureOpenAI.buildMessages ("Continue")
        (some (Except.ok scenarioMemory))).length = 3 := by
  have hg : ∀ m ∈ scenarioMemory,
      (Gemini.convertMemoryMessage (fun _ => (none : Option ArgsMap)) m).isSome := by
    decide
  have ha : ∀ m ∈ scenarioMemory, (AzureOpenAI.convertMemoryMessage m).isSome := by
    decide
  have h := built_history_preserves_memory (fun _ => (none : Option ArgsMap))
    ("Continue") scenarioMemory hg ha
  exact ⟨hg, ha, h.1.1, h.2.1⟩

/-- C8: a tool-role message with an empty toolCallID is dropped by both
builders; with a non-empty toolCallID it becomes a native tool-result turn,
where the Gemini builder (which must name the tool) resolves the name from
the metadata key tool_name and defaults to unknown when that key is absent. -/
theorem tool_role_message_conversion
    (jsonParse : String → Option ArgsMap) (msg : Message)
    (hrole : msg.role = MessageRole.tool) :
    (msg.toolCallID = "" →
        Gemini.convertMemoryMessage jsonParse msg = none
        ∧ AzureOpenAI.convertMemoryMessage msg = none)
    ∧ (msg.toolCallID ≠ "" →
        Gemini.convertMemoryMessage jsonParse msg
          = some ⟨"user", [Gemini.Part.functionResponse
              ⟨Gemini.resolveToolName msg.metadata, msg.content⟩]⟩
        ∧ AzureOpenAI.convertMemoryMessage msg
          = some (ChatMessageParam.toolMsg msg.content msg.toolCallID))
    ∧ ((∀ md, msg.metadata = some md → md.lookup ("tool_name") = none) →
        Gemini.resolveToolName msg.metadata = "unknown")
    ∧ (∀ md s, msg.metadata = some md →
        md.lookup ("tool_name") = some (MetaValue.str s) →
        Gemini.resolveToolName msg.metadata = s) := by
  refine ⟨?_, ?_, ?_, ?_⟩
  · intro h
    exact ⟨by simp [Gemini.convertMemoryMessage, hrole, h],
      by simp [AzureOpenAI.convertMemoryMessage, hrole, h]⟩
  · intro h
    exact ⟨by simp [Gemini.convertMemoryMessage, hrole, h],
      by simp [AzureOpenAI.convertMemoryMessage, hrole, h]⟩
  · intro h
    cases hmd : msg.metadata with
    | none => simp [Gemini.resolveToolName]
    | some md => simp [Gemini.resolveToolName, h md hmd]
  · intro md s hmd hl
    simp [Gemini.resolveToolName, hmd, hl]

/-- A concrete tool-result message with a non-empty call id and no metadata. -/
def sampleToolMessage : Message :=
  { role := MessageRole.tool, content := "Sunny", toolCallID := "call_123" }

/-- Witness for C8: a tool message without a tool_name metadata key becomes a
Gemini function response named unknown and an OpenAI tool message keyed by
its call id. -/
theorem tool_role_message_conversion_witness :
    sampleToolMessage.role = MessageRole.tool
    ∧ sampleToolMessage.toolCallID ≠ ""
    ∧ Gemini.convertMemoryMessage (fun _ => (none : Option ArgsMap)) sampleToolMessage
        = some ⟨"user", [Gemini.Part.functionResponse ⟨"unknown", "Sunny"⟩]⟩
    ∧ AzureOpenAI.convertMemoryMessage sampleToolMessage
        = some (ChatMessageParam.toolMsg ("Sunny") ("call_123")) := by
  have h := (tool_role_message_conversion (fun _ => (none : Option ArgsMap))
    sampleToolMessage rfl).2.1 (by decide)
  exact ⟨rfl, by decide, h.1, h.2⟩

/-- C3 (amended): the Gemini builder converts an assistant message with tool
calls to one model turn carrying any non-empty text plus one function-call
part per ToolCall in order, substituting the empty object when argument
parsing fails; the Azure OpenAI builder instead emits a plain assistant text
turn without tool-call entries, dropping the message when its text is empty. -/
theorem assistant_tool_calls_conversion
    (jsonParse : String → Option ArgsMap) (msg : Message)
    (hrole : msg.role = MessageRole.assistant) (htc : msg.toolCalls ≠ []) :
    Gemini.convertMemoryMessage jsonParse msg
        = some ⟨"model",
            (if msg.content ≠ "" then [Gemini.Part.text msg.content] else [])
              ++ msg.toolCalls.map (fun tc =>
                   Gemini.Part.functionCall ⟨tc.name, (jsonParse tc.arguments).getD []⟩)⟩
    ∧ AzureOpenAI.convertMemoryMessage msg
        = (if msg.content ≠ "" then some (ChatMessageParam.assistant msg.content [])
           else none) := by
  have hlen : 0 < msg.toolCalls.length := List.length_pos.mpr htc
  constructor
  · simp [Gemini.convertMemoryMessage, hrole, hlen]
  · simp [AzureOpenAI.convertMemoryMessage, hrole]

/-- A concrete assistant message carrying one tool call with unparsable
arguments. -/
def sampleAssistantCallMessage : Message :=
  { role := MessageRole.assistant, content := "checking",
    toolCalls := [⟨"call_1", "get_weather", "notjson"⟩] }

/-- Witness for C3 (amended): the Gemini conversion carries the text plus one
function-call part with empty arguments on parse failure, while the Azure
OpenAI conversion carries no tool-call entry. -/
theorem assistant_tool_calls_conversion_witness :
    sampleAssistantCallMessage.role = MessageRole.assistant
    ∧ sampleAssistantCallMessage.toolCalls ≠ []
    ∧ Gemini.convertMemoryMessage (fun _ => (none : Option ArgsMap))
        sampleAssistantCallMessage
        = some ⟨"model", [Gemini.Part.text ("checking"),
            Gemini.Part.functionCall ⟨"get_weather", []⟩]⟩
    ∧ AzureOpenAI.convertMemoryMessage sampleAssistantCallMessage
        = some (ChatMessageParam.assistant ("checking") []) := by
  have h := assistant_tool_calls_conversion (fun _ => (none : Option ArgsMap))
    sampleAssistantCallMessage rfl (by decide)
  exact ⟨rfl, by decide, h.1, h.2⟩

/-- An assistant message with text and one tool call, for refuting the claim
on the Azure OpenAI builder. -/
def azureAssistantCallMessage : Message :=
  { role := MessageRole.assistant, content := "On it",
    toolCalls := [⟨"call_9", "get_weather", "notjson"⟩] }

/-- The native tool-call entries carried by an OpenAI-format param. -/
def ChatMessageParam.carriedToolCalls : ChatMessageParam → List ToolCall
  | ChatMessageParam.assistant _ tcs => tcs
  | _ => []

/-- C3 counterexample: the Azure OpenAI builder converts an assistant message
holding one ToolCall into a plain assistant turn carrying zero native
tool-call entries, contradicting exactly one native entry per ToolCall. -/
theorem assistant_tool_calls_conversion_counterexample :
    azureAssistantCallMessage.toolCalls.length = 1
    ∧ AzureOpenAI.convertMemoryMessage azureAssistantCallMessage
        = some (ChatMessageParam.assistant ("On it") [])
    ∧ (AzureOpenAI.convertMemoryMessage azureAssistantCallMessage).map
        (fun e => (ChatMessageParam.carriedToolCalls e).length) = some 0 :=
  ⟨rfl, rfl, rfl⟩

/-- Under a vendor that always answers with at least one tool call, the tool
loop burns its entire budget, one vendor request per remaining round, then
fails with the iteration-budget error. -/
theorem toolLoop_budget_exhaustion (c : OpenAIClient) (cfg : LLMConfig)
    (tools : List Tool) (toolDefs : List FunctionDefinition) (vendor : Vendor)
    (hv : ∀ k req, ∃ choice rest,
        vendor k req = Except.ok ⟨choice :: rest⟩ ∧ choice.toolCalls ≠ []) :
    ∀ (fuel k : Nat) (messages : List ChatMessageParam),
      (toolLoop c cfg tools toolDefs vendor fuel k messages).1
          = Except.error ("max iterations reached without a final answer")
      ∧ (toolLoop c cfg tools toolDefs vendor fuel k messages).2.length = fuel := by
  intro fuel
  induction fuel with
  | zero => intro k messages; exact ⟨rfl, rfl⟩
  | succ n ih =>
    intro k messages
    obtain ⟨choice, rest, hvk, htc⟩ := hv k (toolLoopRequest c cfg toolDefs messages)
    have hne : choice.toolCalls.isEmpty = false := by
      cases h : choice.toolCalls with
      | nil => exact absurd h htc
      | cons a t => rfl
    have ihr := ih (k + 1)
      (messages ++ [ChatMessageParam.assistant choice.content choice.toolCalls]
        ++ choice.toolCalls.map (executeToolCall tools))
    constructor
    · simp only [toolLoop, hvk, hne]
      simpa using ihr.1
    · simp only [toolLoop, hvk, hne]
      simpa using ihr.2

/-- C1: with a nonnegative configured MaxIterations (zero meaning unset and
defaulting to 10), a vendor that always replies with at least one tool call
makes GenerateWithTools issue exactly the effective maximum number of vendor
requests and then return the iteration-budget error. -/
theorem generateWithTools_iteration_budget (c : OpenAIClient) (prompt : String)
    (tools : List Tool) (opts : List GenerateOption) (vendor : Vendor)
    (hmax : 0 ≤ (applyOptions {} opts).maxIterations)
    (hv : ∀ k req, ∃ choice rest,
        vendor k req = Except.ok ⟨choice :: rest⟩ ∧ choice.toolCalls ≠ []) :
    (generateWithTools c prompt tools opts vendor).1
        = Except.error ("max iterations reached without a final answer")
    ∧ (generateWithTools c prompt tools opts vendor).2.length
        = (gwtMaxIterations (applyOptions {} opts)).toNat :=
  toolLoop_budget_exhaustion c (gwtConfig (applyOptions {} opts)) tools
    (tools.map makeToolDefinition) vendor hv
    (gwtMaxIterations (applyOptions {} opts)).toNat 0
    (gwtInitialMessages prompt (applyOptions {} opts))

/-- A vendor that always requests one tool call. -/
def alwaysToolCallVendor : Vendor := fun _ _ =>
  Except.ok ⟨[⟨"", [⟨"call_1", "lookup", ""⟩]⟩]⟩

/-- Witness for C1: with MaxIterations left unset, the loop issues exactly 10
requests against an always-tool-calling vendor and fails with the budget
error. -/
theorem generateWithTools_iteration_budget_witness :
    0 ≤ (applyOptions {} ([] : List GenerateOption)).maxIterations
    ∧ (∀ k req, ∃ choice rest,
        alwaysToolCallVendor k req = Except.ok ⟨choice :: rest⟩
          ∧ choice.toolCalls ≠ [])
    ∧ (generateWithTools ⟨"gpt-4o-mini", none⟩ ("hi") [] [] alwaysToolCallVendor).1
        = Except.error ("max iterations reached without a final answer")
    ∧ (generateWithTools ⟨"gpt-4o-mini", none⟩ ("hi") [] []
        alwaysToolCallVendor).2.length = 10 := by
  have hv : ∀ k req, ∃ choice rest,
      alwaysToolCallVendor k req = Except.ok ⟨choice :: rest⟩
        ∧ choice.toolCalls ≠ [] := by
    intro k req
    exact ⟨_, [], rfl, by decide⟩
  have h := generateWithTools_iteration_budget ⟨"gpt-4o-mini", none⟩ ("hi") [] []
    alwaysToolCallVendor (by decide) hv
  exact ⟨by decide, hv, h.1, h.2⟩

/-- C5: when the first vendor response of GenerateWithTools carries zero tool
calls, the loop stops after exactly one vendor request and returns that
response's text trimmed of surrounding whitespace. -/
theorem generateWithTools_first_round_done (c : OpenAIClient) (prompt : String)
    (tools : List Tool) (opts : List GenerateOption) (vendor : Vendor)
    (choice : ChatMessage) (rest : List ChatMessage)
    (hmax : 0 ≤ (applyOptions {} opts).maxIterations)
    (hv : vendor 0 (toolLoopRequest c (gwtConfig (applyOptions {} opts))
          (tools.map makeToolDefinition)
          (gwtInitialMessages prompt (applyOptions {} opts)))
        = Except.ok ⟨choice :: rest⟩)
    (hnc : choice.toolCalls = []) :
    (generateWithTools c prompt tools opts vendor).1
        = Except.ok (trimSpace choice.content)
    ∧ (generateWithTools c prompt tools opts vendor).2.length = 1 := by
  obtain ⟨n, hn⟩ : ∃ n, (gwtMaxIterations (applyOptions {} opts)).toNat = n + 1 := by
    unfold gwtMaxIterations
    by_cases h0 : (applyOptions {} opts).maxIterations = 0
    · exact ⟨9, by simp [h0]⟩
    · refine ⟨((applyOptions {} opts).maxIterations).toNat - 1, ?_⟩
      simp only [h0, if_false]
      omega
  have key : toolLoop c (gwtConfig (applyOptions {} opts)) tools
      (tools.map makeToolDefinition) vendor (n + 1) 0
      (gwtInitialMessages prompt (applyOptions {} opts))
      = (Except.ok (trimSpace choice.content),
         [⟨toolLoopRequest c (gwtConfig (applyOptions {} opts))
            (tools.map makeToolDefinition)
            (gwtInitialMessages prompt (applyOptions {} opts)), Dispatch.direct⟩]) := by
    simp [toolLoop, hv, hnc]
  constructor
  · simp only [generateWithTools]
    rw [hn, key]
  · simp only [generateWithTools]
    rw [hn, key]
    rfl

/-- A vendor that immediately answers with a padded final text and no tool
calls. -/
def paddedAnswerVendor : Vendor := fun _ _ =>
  Except.ok ⟨[⟨"  hello  ", []⟩]⟩

/-- Witness for C5: one request, trimmed answer. -/
theorem generateWithTools_first_round_done_witness :
    0 ≤ (applyOptions {} ([] : List GenerateOption)).maxIterations
    ∧ (generateWithTools ⟨"gpt-4o-mini", none⟩ ("hi") [] [] paddedAnswerVendor).1
        = Except.ok ("hello")
    ∧ (generateWithTools ⟨"gpt-4o-mini", none⟩ ("hi") [] []
        paddedAnswerVendor).2.length = 1 := by
  have h := generateWithTools_first_round_done ⟨"gpt-4o-mini", none⟩ ("hi") [] []
    paddedAnswerVendor ⟨"  hello  ", []⟩ [] (by decide) rfl rfl
  refine ⟨by decide, ?_, h.2⟩
  rw [h.1]
  rfl

/-- C4: per tool call of a round, an absent tool yields an error-text result
whose text is the not-found error naming the requested tool, and a failing
Execute yields an error-text result carrying the message; every call yields
exactly one result turn keyed by its id, in call order, and the round
continues with those results appended instead of failing. -/
theorem tool_call_error_handling (tools : List Tool) (tc : ToolCall) :
    ((∀ t ∈ tools, t.name ≠ tc.name) →
        executeToolCall tools tc
          = ChatMessageParam.toolMsg ("Error: tool not found: " ++ tc.name) tc.id)
    ∧ (∀ t, tools.find? (fun u => u.name == tc.name) = some t →
        ∀ e, t.execute tc.arguments = Except.error e →
          executeToolCall tools tc
            = ChatMessageParam.toolMsg ("Error: " ++ e) tc.id)
    ∧ (∃ s, executeToolCall tools tc = ChatMessageParam.toolMsg s tc.id)
    ∧ (∀ tcs : List ToolCall,
        (tcs.map (executeToolCall tools)).length = tcs.length
        ∧ ∀ i : Nat, (tcs.map (executeToolCall tools))[i]?
            = (tcs[i]?).map (executeToolCall tools))
    ∧ (∀ (c : OpenAIClient) (cfg : LLMConfig)
        (toolDefs : List FunctionDefinition) (vendor : Vendor)
        (fuel k : Nat) (messages : List ChatMessageParam)
        (choice : ChatMessage) (rest : List ChatMessage),
        vendor k (toolLoopRequest c cfg toolDefs messages)
            = Except.ok ⟨choice :: rest⟩ →
        choice.toolCalls ≠ [] →
        toolLoop c cfg tools toolDefs vendor (fuel + 1) k messages
          = ((toolLoop c cfg tools toolDefs vendor fuel (k + 1)
                (messages ++ [ChatMessageParam.assistant choice.content choice.toolCalls]
                  ++ choice.toolCalls.map (executeToolCall tools))).1,
             ⟨toolLoopRequest c cfg toolDefs messages, Dispatch.direct⟩
               :: (toolLoop c cfg tools toolDefs vendor fuel (k + 1)
                    (messages ++ [ChatMessageParam.assistant choice.content choice.toolCalls]
                      ++ choice.toolCalls.map (executeToolCall tools))).2)) := by
  refine ⟨?_, ?_, ?_, ?_, ?_⟩
  · intro h
    have hfind : tools.find? (fun u => u.name == tc.name) = none := by
      rw [List.find?_eq_none]
      intro t ht
      simpa using h t ht
    simp [executeToolCall, hfind]
  · intro t hfind e he
    simp [executeToolCall, hfind, he]
  · cases hfind : tools.find? (fun u => u.name == tc.name) with
    | none =>
      refine ⟨"Error: tool not found: " ++ tc.name, ?_⟩
      simp [executeToolCall, hfind]
    | some t =>
      cases hexec : t.execute tc.arguments with
      | error e =>
        refine ⟨"Error: " ++ e, ?_⟩
        simp [executeToolCall, hfind, hexec]
      | ok r =>
        refine ⟨r, ?_⟩
        simp [executeToolCall, hfind, hexec]
  · intro tcs
    exact ⟨by simp, fun i => by simp⟩
  · intro c cfg toolDefs vendor fuel k messages choice rest hvk htc
    have hne : choice.toolCalls.isEmpty = false := by
      cases h : choice.toolCalls with
      | nil => exact absurd h htc
      | cons a t => rfl
    simp [toolLoop, hvk, hne]

/-- A tool whose execution always fails. -/
def boomTool : Tool :=
  { name := "calc", description := "calculator",
    execute := fun _ => Except.error ("boom") }

/-- Witness for C4: a call naming an unoffered tool and a call whose
execution fails both become error-text tool-result turns keyed by their call
ids. -/
theorem tool_call_error_handling_witness :
    (∀ t ∈ [boomTool], t.name ≠ "searcher")
    ∧ executeToolCall [boomTool] ⟨"call_7", "searcher", "x"⟩
        = ChatMessageParam.toolMsg ("Error: tool not found: searcher") ("call_7")
    ∧ boomTool.execute ("x") = Except.error ("boom")
    ∧ executeToolCall [boomTool] ⟨"call_8", "calc", "x"⟩
        = ChatMessageParam.toolMsg ("Error: boom") ("call_8") := by
  have hnot : ∀ t ∈ [boomTool], t.name ≠ "searcher" := by
    intro t ht
    rw [List.mem_singleton.mp ht]
    decide
  refine ⟨hnot, ?_, rfl, ?_⟩
  · exact (tool_call_error_handling [boomTool] ⟨"call_7", "searcher", "x"⟩).1 hnot
  · exact (tool_call_error_handling [boomTool] ⟨"call_8", "calc", "x"⟩).2.1
      boomTool rfl ("boom") rfl

/-- All vendor requests of the tool loop are dispatched directly, never
through the retry executor. -/
theorem toolLoop_dispatch_direct (c : OpenAIClient) (cfg : LLMConfig)
    (tools : List Tool) (toolDefs : List FunctionDefinition) (vendor : Vendor) :
    ∀ (fuel k : Nat) (messages : List ChatMessageParam),
      ((toolLoop c cfg tools toolDefs vendor fuel k messages).2.all
        (fun e => e.dispatch == Dispatch.direct)) = true := by
  intro fuel
  induction fuel with
  | zero => intro k messages; rfl
  | succ n ih =>
    intro k messages
    cases hres : vendor k (toolLoopRequest c cfg toolDefs messages) with
    | error e => simp [toolLoop, hres]
    | ok resp =>
      cases hch : resp.choices with
      | nil => simp [toolLoop, hres, hch]
      | cons choice restc =>
        cases hemp : choice.toolCalls with
        | nil => simp [toolLoop, hres, hch, hemp]
        | cons a ts => simp [toolLoop, hres, hch, hemp, ih]

/-- C2 (amended): the retry executor, when configured, wraps Generate's
single network call, but every tool-loop round of GenerateWithTools issues
its network call directly, bypassing the retry executor. -/
theorem retry_wraps_generate_not_tool_loop (c : OpenAIClient) (prompt : String)
    (tools : List Tool) (opts : List GenerateOption) (vendor gvendor : Vendor) :
    ((generateWithTools c prompt tools opts vendor).2.all
        (fun e => e.dispatch == Dispatch.direct)) = true
    ∧ (generate c prompt opts gvendor).2.map (fun e => e.dispatch)
        = [if c.retryExecutor.isSome then Dispatch.viaRetry else Dispatch.direct] := by
  constructor
  · exact toolLoop_dispatch_direct c (gwtConfig (applyOptions {} opts)) tools
      (tools.map makeToolDefinition) vendor
      (gwtMaxIterations (applyOptions {} opts)).toNat 0
      (gwtInitialMessages prompt (applyOptions {} opts))
  · rfl

/-- A client with a configured retry executor. -/
def retryClient : OpenAIClient :=
  { model := "gpt-4o-mini", retryExecutor := some { attempts := 3 } }

/-- A vendor that immediately answers with a final text. -/
def plainVendor : Vendor := fun _ _ => Except.ok ⟨[⟨"done", []⟩]⟩

/-- C2 counterexample: with a retry executor configured, the tool-loop round
of GenerateWithTools still dispatches its network call directly, so it is not
the case that every round's network call is executed through the Retry
Executor. -/
theorem retry_wraps_generate_counterexample :
    retryClient.retryExecutor.isSome = true
    ∧ (generateWithTools retryClient ("hi") [] [] plainVendor).2.map
        (fun e => e.dispatch) = [Dispatch.direct]
    ∧ ¬ (∀ e ∈ (generateWithTools retryClient ("hi") [] [] plainVendor).2,
          e.dispatch = Dispatch.viaRetry) := by
  refine ⟨rfl, rfl, ?_⟩
  intro h
  have hall : ∀ d ∈ (generateWithTools retryClient ("hi") [] [] plainVendor).2.map
      (fun e => e.dispatch), d = Dispatch.viaRetry := by
    intro d hd
    obtain ⟨e, he, hde⟩ := List.mem_map.mp hd
    rw [← hde]
    exact h e he
  have : Dispatch.direct = Dispatch.viaRetry := by
    apply hall
    rw [show (generateWithTools retryClient ("hi") [] [] plainVendor).2.map
      (fun e => e.dispatch) = [Dispatch.direct] from rfl]
    exact List.mem_singleton.mpr rfl
  exact absurd this (by decide)

/-- C9: Generate transmits temperature 1 and no top-p field for reasoning
models, regardless of the requested values; for non-reasoning models the
requested temperature and top-p pass through. -/
theorem generate_reasoning_normalization (c : OpenAIClient) (prompt : String)
    (opts : List GenerateOption) (cfg : LLMConfig) (vendor : Vendor)
    (hcfg : (applyOptions generateInit opts).llmConfig = some cfg) :
    (isReasoningModel c.model = true →
        (generate c prompt opts vendor).2.map
            (fun e => (e.req.temperature, e.req.topP))
          = [(some 1, (none : Option ℚ))])
    ∧ (isReasoningModel c.model = false →
        (generate c prompt opts vendor).2.map
            (fun e => (e.req.temperature, e.req.topP))
          = [(some cfg.temperature, some cfg.topP)]) := by
  constructor
  · intro h
    simp [generate, generateEvent, generateRequest, hcfg, getTemperatureForModel, h]
  · intro h
    simp [generate, generateEvent, generateRequest, hcfg, getTemperatureForModel, h]

/-- A reasoning-model client. -/
def o3MiniClient : OpenAIClient := { model := "o3-mini" }

/-- A non-reasoning-model client. -/
def gpt4oMiniClient : OpenAIClient := { model := "gpt-4o-mini" }

/-- A vendor returning a fixed answer, for exercising Generate. -/
def fixedAnswerVendor : Vendor := fun _ _ => Except.ok ⟨[⟨"ok", []⟩]⟩

/-- Witness for C9: requesting temperature 0.2 on o3-mini transmits
temperature 1 and no top-p, while gpt-4o-mini passes the request through. -/
theorem generate_reasoning_normalization_witness :
    (applyOptions generateInit [withTemperature (1/5)]).llmConfig
        = some { temperature := 1/5 }
    ∧ isReasoningModel ("o3-mini") = true
    ∧ (generate o3MiniClient ("hello") [withTemperature (1/5)]
        fixedAnswerVendor).2.map (fun e => (e.req.temperature, e.req.topP))
        = [(some 1, (none : Option ℚ))]
    ∧ isReasoningModel ("gpt-4o-mini") = false
    ∧ (generate gpt4oMiniClient ("hello") [withTemperature (1/5)]
        fixedAnswerVendor).2.map (fun e => (e.req.temperature, e.req.topP))
        = [(some (1/5), some 0)] := by
  have hcfg : (applyOptions generateInit [withTemperature (1/5)]).llmConfig
      = some { temperature := 1/5 } := rfl
  have hr : isReasoningModel ("o3-mini") = true := by decide
  have hnr : isReasoningModel ("gpt-4o-mini") = false := by decide
  have h1 := (generate_reasoning_normalization o3MiniClient ("hello")
    [withTemperature (1/5)] { temperature := 1/5 } fixedAnswerVendor hcfg).1 hr
  have h2 := (generate_reasoning_normalization gpt4oMiniClient ("hello")
    [withTemperature (1/5)] { temperature := 1/5 } fixedAnswerVendor hcfg).2 hnr
  exact ⟨hcfg, hr, h1, hnr, h2⟩

/-- C10: when the wrapped client does not implement GenerateWithTools, the
tracing middleware's GenerateWithTools falls back to the traced Generate on
the same prompt and options: the tools list has no effect and the result is
exactly the wrapped client's Generate result. -/
theorem traced_generateWithTools_fallback (llm : LLMClient) (prompt : String)
    (tools : List Tool) (opts : List GenerateOption)
    (h : llm.generateWithTools = none) :
    (tracedGenerateWithTools llm prompt tools opts).result = llm.generate prompt opts
    ∧ ∀ tools2 : List Tool,
        tracedGenerateWithTools llm prompt tools opts
          = tracedGenerateWithTools llm prompt tools2 opts := by
  constructor
  · simp [tracedGenerateWithTools, h, tracedGenerate]
  · intro tools2
    simp [tracedGenerateWithTools, h]

/-- A wrapped client without a GenerateWithTools implementation. -/
def echoLLM : LLMClient :=
  { name := "echo", generate := fun p _ => Except.ok ("echo: " ++ p) }

/-- Witness for C10: the fallback returns exactly the wrapped Generate
result. -/
theorem traced_generateWithTools_fallback_witness :
    echoLLM.generateWithTools = none
    ∧ (tracedGenerateWithTools echoLLM ("hi") [] []).result
        = echoLLM.generate ("hi") []
    ∧ (tracedGenerateWithTools echoLLM ("hi") [] []).result
        = Except.ok ("echo: hi") := by
  have h := traced_generateWithTools_fallback echoLLM ("hi") [] [] rfl
  refine ⟨rfl, h.1, ?_⟩
  rw [h.1]
  rfl

end AgentSDK
